import Mathlib

/-
Shallow embedding of the size-estimation component of the repository
(`src/size_estimation/size_predictor.py`, class `SizeEstimator`).

Python dictionaries of measurements are modelled as association lists from
measurement names to values; a value is either a number (Python `int`/`float`,
modelled exactly as a rational) or a non-numeric value (modelled as a string,
the representative of "not an instance of (int, float)").  Python exceptions
are modelled with `Except Unit`: operations that can raise return
`Except Unit α`, and `Except.error ()` stands for a raised exception.
Logging calls are modelled as a list of emitted log tags so that
"logged but not rejected" claims are statable.
-/

namespace SizePredictor

/-- Values stored in a measurement mapping: a Python `int`/`float` (modelled
as an exact rational) or a non-numeric value (modelled as a string). -/
inductive Val where
  | num (q : ℚ)
  | str (s : String)
  deriving DecidableEq, Repr

/-- A measurement mapping: association list from measurement names to values,
modelling a Python dict (lookup returns the first binding). -/
abbrev Measurements := List (String × Val)

/-- Dictionary lookup, `measurements.get(key)`: first binding wins, `none`
when the key is absent. -/
def mget : Measurements → String → Option Val
  | [], _ => none
  | (k, v) :: rest, key => if k = key then some v else mget rest key

/-- Python `isinstance(value, (int, float))`. -/
def isNum : Val → Bool
  | .num _ => true
  | .str _ => false

/-- The mapping is a measurement mapping in the sense of the data model:
every value is numeric. -/
abbrev NumericMap (m : Measurements) : Prop :=
  (m.all fun p => isNum p.2) = true

/-- The value stored under `shoulder_width`, if present, is numeric. -/
abbrev ShoulderOk (m : Measurements) : Prop :=
  ((mget m "shoulder_width").all isNum) = true

/-- Multiplication `value * height_factor` for a numeric value, identity otherwise
(the `isinstance` branch inside `normalize_measurements`). -/
def scaleVal (factor : ℚ) : Val → Val
  | .num q => .num (q * factor)
  | .str s => .str s

/-- Apply the height factor to every numeric value of the mapping
(the dict comprehension loop of `normalize_measurements`). -/
def scaleAll (m : Measurements) (factor : ℚ) : Measurements :=
  m.map fun p => (p.1, scaleVal factor p.2)

/-- The normalization factor computed from the torso-length proxy `tq`:
`estimated_height_px = tq * 3.5`; if positive, the factor is
`reference_height / (estimated_height_px * 0.1)`, else `1.0`. -/
def heightFactor (tq r : ℚ) : ℚ :=
  let est := tq * (7 / 2)
  if 0 < est then r / (est * (1 / 10)) else 1

/-- Embeds `SizeEstimator.normalize_measurements`: reads `torso_length` with default
`100`, multiplies it by `3.5` (raising a `TypeError` when the stored value is
non-numeric, since Python cannot multiply it by a float), derives the height
factor and rescales every numeric value. -/
def normalize_measurements (m : Measurements) (reference_height : ℚ) : Except Unit Measurements :=
  match mget m "torso_length" with
  | some (.str _) => Except.error ()
  | some (.num q) => Except.ok (scaleAll m (heightFactor q reference_height))
  | none => Except.ok (scaleAll m (heightFactor 100 reference_height))

/-- The list `self.feature_names`, in the fixed order used by `extract_features`. -/
def feature_names : List String :=
  ["shoulder_width", "chest_width", "waist_width", "hip_width", "torso_length", "arm_length"]

/-- The imputation product of the shoulder width read with default 0 and a
fixed ratio; it raises a `TypeError` when the stored shoulder value is
non-numeric (Python cannot multiply it by a float). -/
def imputeFromShoulder (m : Measurements) (c : ℚ) : Except Unit Val :=
  match mget m "shoulder_width" with
  | some (.str _) => Except.error ()
  | some (.num q) => Except.ok (.num (q * c))
  | none => Except.ok (.num (0 * c))

/-- One iteration of the `extract_features` loop: the provided value when the
key is present; otherwise the imputation rule for `chest_width`
(`1.1 * shoulder`), for `waist_width` (`0.75 * shoulder`), or `0.0`. -/
def featureValue (m : Measurements) (name : String) : Except Unit Val :=
  match mget m name with
  | some v => Except.ok v
  | none =>
    if name = "chest_width" then imputeFromShoulder m (11 / 10)
    else if name = "waist_width" then imputeFromShoulder m (3 / 4)
    else Except.ok (.num 0)

/-- Sequential effectful map, the loop of `extract_features`: stops at the
first raised exception. -/
def exceptMap (f : String → Except Unit Val) : List String → Except Unit (List Val)
  | [] => Except.ok []
  | a :: l => do
    let b ← f a
    let bs ← exceptMap f l
    Except.ok (b :: bs)

/-- Embeds `SizeEstimator.extract_features`: the 6-entry feature row (the reshape to
1x6 is modelled by the row itself). -/
def extract_features (m : Measurements) : Except Unit (List Val) :=
  exceptMap (featureValue m) feature_names

/-- The dict `self.size_mapping` as the ordered list of labels for classes 0..5. -/
def size_mapping : List String := ["XS", "S", "M", "L", "XL", "XXL"]

/-- The threshold chain of `_rule_based_prediction` on a numeric shoulder
width: boundaries 35/40/45/50/55. -/
def ruleSizeLabel (shoulder_width : ℚ) : String :=
  if shoulder_width < 35 then "XS"
  else if shoulder_width < 40 then "S"
  else if shoulder_width < 45 then "M"
  else if shoulder_width < 50 then "L"
  else if shoulder_width < 55 then "XL"
  else "XXL"

/-- A prediction result mapping.  Key presence is part of the model:
`all_probabilities = none` means the key is absent from the returned dict,
`some none` that it is present with value `null`, `some (some ps)` that it
holds the probability list; `method = none` means the `method` key is absent. -/
structure PredResult where
  predicted_size : String
  confidence : ℚ
  all_probabilities : Option (Option (List ℚ))
  method : Option String
  measurements_used : Measurements
  deriving DecidableEq, Repr

/-- Embeds `SizeEstimator._rule_based_prediction`: reads `shoulder_width` with
default `0`; comparing a non-numeric value against `35` raises a `TypeError`
(Python `<` between `str` and `int`).  The returned dict has keys
`predicted_size`, `confidence` (0.5), `method` ("rule_based") and
`measurements_used`, and no `all_probabilities` key. -/
def rule_based_prediction (m : Measurements) : Except Unit PredResult :=
  match mget m "shoulder_width" with
  | some (.str _) => Except.error ()
  | some (.num q) =>
    Except.ok { predicted_size := ruleSizeLabel q, confidence := 1 / 2,
                all_probabilities := none, method := some "rule_based",
                measurements_used := m }
  | none =>
    Except.ok { predicted_size := ruleSizeLabel 0, confidence := 1 / 2,
                all_probabilities := none, method := some "rule_based",
                measurements_used := m }

/-- The loaded classifier: either it exposes `predict_proba` (returning the
probability row for the sample) or only `predict` (returning the hard class
label).  Either call may raise. -/
inductive Classifier where
  | proba (f : List Val → Except Unit (List ℚ))
  | hard (f : List Val → Except Unit ℤ)

/-- The estimator state: optional loaded model and optional feature scaler
(`scaler.transform` on the feature row, which may raise). -/
structure SizeEstimator where
  model : Option Classifier
  scaler : Option (List Val → Except Unit (List Val))

/-- The step `if self.scaler: features = self.scaler.transform(features)`. -/
def applyScaler : Option (List Val → Except Unit (List Val)) → List Val → Except Unit (List Val)
  | none, fs => Except.ok fs
  | some s, fs => s fs

/-- Maximum of a list of rationals (used to relate `np.argmax` indexing to
the maximal probability). -/
def maxQ : List ℚ → ℚ
  | [] => 0
  | [x] => x
  | x :: y :: t => max x (maxQ (y :: t))

/-- Embeds `np.argmax`: index of the first occurrence of the maximum. -/
def argmaxIdx : List ℚ → ℕ
  | [] => 0
  | [_] => 0
  | x :: y :: t => if x < maxQ (y :: t) then argmaxIdx (y :: t) + 1 else 0

/-- The body of the `try` block of `predict_size` once a model is loaded:
normalize, extract features, scale, run inference, map the class index
through `size_mapping` (a missing key raises `KeyError`; `np.argmax` on an
empty row raises `ValueError`). -/
def modelPath (sc : Option (List Val → Except Unit (List Val))) (c : Classifier)
    (m : Measurements) : Except Unit PredResult :=
  match normalize_measurements m 170 with
  | Except.error e => Except.error e
  | Except.ok nm =>
    match extract_features nm with
    | Except.error e => Except.error e
    | Except.ok fs =>
      match applyScaler sc fs with
      | Except.error e => Except.error e
      | Except.ok fv =>
        match c with
        | .proba f =>
          match f fv with
          | Except.error e => Except.error e
          | Except.ok ps =>
            match ps with
            | [] => Except.error ()
            | _ :: _ =>
              match size_mapping.get? (argmaxIdx ps) with
              | none => Except.error ()
              | some lbl =>
                Except.ok { predicted_size := lbl, confidence := ps.getD (argmaxIdx ps) 0,
                            all_probabilities := some (some ps), method := none,
                            measurements_used := nm }
        | .hard f =>
          match f fv with
          | Except.error e => Except.error e
          | Except.ok k =>
            match (if 0 ≤ k then size_mapping.get? k.toNat else none) with
            | none => Except.error ()
            | some lbl =>
              Except.ok { predicted_size := lbl, confidence := 1,
                          all_probabilities := some none, method := none,
                          measurements_used := nm }

/-- Embeds `SizeEstimator.predict_size`.  Returns the result of the call (or the
raised exception) together with the list of log tags emitted: the no-model
warning, the low-confidence warning (`confidence < confidence_threshold`,
logged but the prediction is still returned unchanged), or the error log of
the catch-all handler that falls back to `_rule_based_prediction` on the
original measurements. -/
def predict_size (st : SizeEstimator) (m : Measurements) (confidence_threshold : ℚ) :
    Except Unit PredResult × List String :=
  match st.model with
  | none => (rule_based_prediction m, ["no_model_warning"])
  | some c =>
    match modelPath st.scaler c m with
    | Except.ok r =>
      (Except.ok r, if r.confidence < confidence_threshold then ["low_confidence_warning"] else [])
    | Except.error _ => (rule_based_prediction m, ["prediction_error"])

/-- The result component of a `predict_size` call (the logs dropped). -/
def predictResult (st : SizeEstimator) (m : Measurements) (t : ℚ) : Except Unit PredResult :=
  (predict_size st m t).1

end SizePredictor

namespace SizePredictor

deriving instance DecidableEq for Except

/-- Lookup commutes with rescaling: keys are unchanged and values are mapped. -/
theorem mget_scaleAll (m : Measurements) (f : ℚ) (k : String) :
    mget (scaleAll m f) k = (mget m k).map (scaleVal f) := by
  induction m with
  | nil => rfl
  | cons p rest ih =>
    unfold scaleAll at *
    by_cases h : p.1 = k <;> simp [mget, h, ih]

/-- Scaling a value by factor 1 is the identity. -/
theorem scaleVal_one (v : Val) : scaleVal 1 v = v := by
  cases v <;> simp [scaleVal]

/-- Rescaling with factor 1 is the identity. -/
theorem scaleAll_one (m : Measurements) : scaleAll m 1 = m := by
  induction m with
  | nil => rfl
  | cons p rest ih =>
    show (p.1, scaleVal 1 p.2) :: scaleAll rest 1 = p :: rest
    rw [scaleVal_one, ih]

/-- In a numeric mapping every successful lookup yields a numeric value. -/
theorem mget_numeric (m : Measurements) (hm : NumericMap m) (k : String) (v : Val)
    (h : mget m k = some v) : isNum v = true := by
  induction m with
  | nil => simp [mget] at h
  | cons p rest ih =>
    unfold NumericMap at hm
    simp only [List.all_cons, Bool.and_eq_true] at hm
    unfold mget at h
    by_cases hk : p.1 = k
    · simp [hk] at h
      exact h ▸ hm.1
    · simp [hk] at h
      exact ih hm.2 h

/-- A numeric mapping has a numeric (or absent) shoulder width. -/
theorem numericMap_shoulderOk (m : Measurements) (hm : NumericMap m) : ShoulderOk m := by
  unfold ShoulderOk
  cases h : mget m "shoulder_width" with
  | none => rfl
  | some v => simpa [Option.all] using mget_numeric m hm _ v h

/-- Whenever the shoulder width is absent or numeric, `_rule_based_prediction`
returns (does not raise) a result with method `rule_based`, confidence `0.5`,
no `all_probabilities` key, the original measurements, and a size label drawn
from `size_mapping`. -/
theorem rule_based_prediction_ok (m : Measurements) (hm : ShoulderOk m) :
    ∃ r, rule_based_prediction m = Except.ok r ∧ r.method = some "rule_based" ∧
      r.confidence = 1 / 2 ∧ r.all_probabilities = none ∧ r.measurements_used = m ∧
      r.predicted_size ∈ size_mapping := by
  unfold ShoulderOk at hm
  unfold rule_based_prediction
  cases h : mget m "shoulder_width" with
  | none =>
    refine ⟨_, rfl, rfl, rfl, rfl, rfl, ?_⟩
    unfold ruleSizeLabel size_mapping
    split_ifs <;> simp
  | some v =>
    rw [h] at hm
    cases v with
    | str s => simp [Option.all, isNum] at hm
    | num q =>
      refine ⟨_, rfl, rfl, rfl, rfl, rfl, ?_⟩
      unfold ruleSizeLabel size_mapping
      split_ifs <;> simp

/-- C2, counterexample: with `torso_length` absent the default proxy is 100,
so the factor is `170 / 35`, not `1.0`: a shoulder width of 35 is rescaled to
170 rather than returned unchanged. -/
theorem normalize_absent_torso_counterexample :
    normalize_measurements [("shoulder_width", Val.num 35)] 170 ≠
      Except.ok [("shoulder_width", Val.num 35)] := by
  simp [normalize_measurements, mget, scaleAll, scaleVal, heightFactor]
  norm_num

/-- C2 (amended): `normalize_measurements` estimates the proxy pixel height as
`torso_length * 3.5`; when `torso_length` is present, numeric and non-positive
the factor is `1.0` and the mapping is returned unchanged, and on an empty
mapping it returns an empty mapping without raising.  (When `torso_length` is
absent the default proxy 100 applies, so the factor is `reference / 35`, not
`1.0` — see the counterexample.) -/
theorem normalize_nonpos_torso_identity (m : Measurements) (r q : ℚ) :
    (mget m "torso_length" = some (Val.num q) → q ≤ 0 →
      normalize_measurements m r = Except.ok m) ∧
    (m = [] → normalize_measurements m r = Except.ok []) := by
  constructor
  · intro h hq
    unfold normalize_measurements
    rw [h]
    have hest : ¬ (0 : ℚ) < q * (7 / 2) := by nlinarith
    unfold heightFactor
    simp only [hest, if_false]
    rw [scaleAll_one]
  · intro h
    subst h
    rfl

/-- C2 witness: with `torso_length = 0` the numeric shoulder measurement
passes through unchanged, and the empty mapping maps to the empty mapping. -/
theorem normalize_nonpos_torso_identity_witness :
    normalize_measurements [("torso_length", Val.num 0), ("shoulder_width", Val.num 42)] 170 =
      Except.ok [("torso_length", Val.num 0), ("shoulder_width", Val.num 42)] ∧
    normalize_measurements [] 170 = Except.ok [] :=
  ⟨(normalize_nonpos_torso_identity
      [("torso_length", Val.num 0), ("shoulder_width", Val.num 42)] 170 0).1 (by decide) le_rfl,
   (normalize_nonpos_torso_identity [] 170 0).2 rfl⟩

/-- C10: for any mapping whose `torso_length` is numeric and strictly
positive, normalization maps the stored `torso_length` to the constant
`reference_height / 0.35` (about 485.71 when the reference height is 170),
independently of the input torso length. -/
theorem normalize_pos_torso_constant (m : Measurements) (r q : ℚ)
    (h : mget m "torso_length" = some (Val.num q)) (hq : 0 < q) :
    ∃ m2, normalize_measurements m r = Except.ok m2 ∧
      mget m2 "torso_length" = some (Val.num (r / (7 / 20))) := by
  unfold normalize_measurements
  rw [h]
  refine ⟨_, rfl, ?_⟩
  rw [mget_scaleAll, h]
  have hest : (0 : ℚ) < q * (7 / 2) := by nlinarith
  have hq0 : q ≠ 0 := ne_of_gt hq
  show some (Val.num (q * heightFactor q r)) = some (Val.num (r / (7 / 20)))
  have hf : heightFactor q r = r / (q * (7 / 2) * (1 / 10)) := by
    unfold heightFactor
    simp [hest]
  rw [hf]
  congr 1
  congr 1
  field_simp
  ring

/-- C10 witness: a torso length of 50 at reference height 170 is mapped to
`3400 / 7 = 170 / 0.35`. -/
theorem normalize_pos_torso_constant_witness :
    ∃ m2, normalize_measurements [("torso_length", Val.num 50)] 170 = Except.ok m2 ∧
      mget m2 "torso_length" = some (Val.num ((170 : ℚ) / (7 / 20))) :=
  normalize_pos_torso_constant [("torso_length", Val.num 50)] 170 50 (by decide) (by norm_num)

/-- The class index associated with each size label
(`self.reverse_size_mapping`). -/
def sizeIdx (s : String) : ℕ :=
  if s = "XS" then 0
  else if s = "S" then 1
  else if s = "M" then 2
  else if s = "L" then 3
  else if s = "XL" then 4
  else 5

/-- C6: the rule-based label is monotone in the shoulder width (a larger
shoulder width never yields a smaller label), the thresholds 35/40/45/50/55
classify 34/39/44/49/54/60 as XS/S/M/L/XL/XXL, and the rule-based predicted
size depends only on the `shoulder_width` entry of the mapping. -/
theorem rule_based_monotone_thresholds :
    (∀ a b : ℚ, a ≤ b → sizeIdx (ruleSizeLabel a) ≤ sizeIdx (ruleSizeLabel b)) ∧
    (ruleSizeLabel 34 = "XS" ∧ ruleSizeLabel 39 = "S" ∧ ruleSizeLabel 44 = "M" ∧
      ruleSizeLabel 49 = "L" ∧ ruleSizeLabel 54 = "XL" ∧ ruleSizeLabel 60 = "XXL") ∧
    (∀ m1 m2 : Measurements, mget m1 "shoulder_width" = mget m2 "shoulder_width" →
      Except.map PredResult.predicted_size (rule_based_prediction m1) =
        Except.map PredResult.predicted_size (rule_based_prediction m2)) := by
  refine ⟨?_, by decide, ?_⟩
  · intro a b hab
    unfold ruleSizeLabel
    split_ifs <;> first | decide | (exfalso; linarith)
  · intro m1 m2 h
    unfold rule_based_prediction
    rw [h]
    cases hv : mget m2 "shoulder_width" with
    | none => rfl
    | some v => cases v <;> rfl

/-- C6 witness: monotonicity applied at 34 and 60, and shoulder-only
dependence applied to two mappings sharing the same shoulder width. -/
theorem rule_based_monotone_thresholds_witness :
    sizeIdx (ruleSizeLabel 34) ≤ sizeIdx (ruleSizeLabel 60) ∧
    Except.map PredResult.predicted_size
        (rule_based_prediction [("shoulder_width", Val.num 42)]) =
      Except.map PredResult.predicted_size
        (rule_based_prediction [("shoulder_width", Val.num 42), ("hip_width", Val.num 9)]) :=
  ⟨rule_based_monotone_thresholds.1 34 60 (by norm_num),
   rule_based_monotone_thresholds.2.2 _ _ (by decide)⟩

end SizePredictor

namespace SizePredictor

/-- The shoulder width read with default 0, when the stored value is numeric
(or absent). -/
def shoulderOrZero (m : Measurements) : ℚ :=
  match mget m "shoulder_width" with
  | some (.num q) => q
  | _ => 0

/-- The value `extract_features` places at a given feature name when
the imputation basis is well-typed: the provided value when present,
otherwise the chest/waist ratio imputation or `0.0`. -/
def featD (m : Measurements) (name : String) : Val :=
  match mget m name with
  | some v => v
  | none =>
    if name = "chest_width" then .num (shoulderOrZero m * (11 / 10))
    else if name = "waist_width" then .num (shoulderOrZero m * (3 / 4))
    else .num 0

/-- Numeric content of a value (0 for non-numeric values). -/
def numOf : Val → ℚ
  | .num q => q
  | .str _ => 0

/-- When the shoulder value is absent or numeric, each loop iteration of
`extract_features` succeeds and produces `featD`. -/
theorem featureValue_ok (m : Measurements) (hsh : ShoulderOk m) (name : String) :
    featureValue m name = Except.ok (featD m name) := by
  unfold ShoulderOk at hsh
  unfold featureValue featD
  cases hv : mget m name with
  | some v => rfl
  | none =>
    unfold imputeFromShoulder shoulderOrZero
    cases hs : mget m "shoulder_width" with
    | none => split_ifs <;> rfl
    | some v =>
      rw [hs] at hsh
      cases v with
      | str s => simp [Option.all, isNum] at hsh
      | num q => split_ifs <;> rfl

/-- The effectful loop succeeds pointwise iff it succeeds on the mapped
list. -/
theorem exceptMap_ok (f : String → Except Unit Val) (g : String → Val) (l : List String)
    (h : ∀ a ∈ l, f a = Except.ok (g a)) : exceptMap f l = Except.ok (l.map g) := by
  induction l with
  | nil => rfl
  | cons a l ih =>
    have ha := h a (by simp)
    have hl := ih fun b hb => h b (by simp [hb])
    simp only [exceptMap, ha, hl]
    rfl

/-- When the shoulder value is absent or numeric, `extract_features`
returns the `featD` row. -/
theorem extract_features_ok (m : Measurements) (hsh : ShoulderOk m) :
    extract_features m = Except.ok (feature_names.map (featD m)) :=
  exceptMap_ok _ _ _ fun name _ => featureValue_ok m hsh name

/-- C7: with a numeric (or absent) shoulder width, `extract_features`
returns one value per canonical feature name in the fixed order — 6 entries
regardless of which keys were present — using the provided value when the key
is present, imputing `1.1 * shoulder` for a missing `chest_width`,
`0.75 * shoulder` for a missing `waist_width` (shoulder defaulting to 0 when
absent), and `0.0` for any other missing feature. -/
theorem extract_features_impute (m : Measurements) (hsh : ShoulderOk m) :
    extract_features m = Except.ok (feature_names.map (featD m)) ∧
    (feature_names.map (featD m)).length = 6 ∧
    (∀ name ∈ feature_names, ∀ v, mget m name = some v → featD m name = v) ∧
    (mget m "chest_width" = none → featD m "chest_width" = Val.num (shoulderOrZero m * (11 / 10))) ∧
    (mget m "waist_width" = none → featD m "waist_width" = Val.num (shoulderOrZero m * (3 / 4))) ∧
    (∀ name ∈ (["shoulder_width", "hip_width", "torso_length", "arm_length"] : List String),
      mget m name = none → featD m name = Val.num 0) := by
  refine ⟨extract_features_ok m hsh, rfl, ?_, ?_, ?_, ?_⟩
  · intro name _ v hv
    simp [featD, hv]
  · intro h
    simp [featD, h]
  · intro h
    simp [featD, h]
  · intro name hname h
    fin_cases hname <;> simp [featD, h]

/-- C7 witness: from a mapping holding only `shoulder_width = 40`,
the row is produced and the chest entry is the `1.1 * shoulder` imputation. -/
theorem extract_features_impute_witness :
    extract_features [("shoulder_width", Val.num 40)] =
      Except.ok (feature_names.map (featD [("shoulder_width", Val.num 40)])) ∧
    featD [("shoulder_width", Val.num 40)] "chest_width" =
      Val.num (shoulderOrZero [("shoulder_width", Val.num 40)] * (11 / 10)) :=
  ⟨(extract_features_impute [("shoulder_width", Val.num 40)] (by decide)).1,
   (extract_features_impute [("shoulder_width", Val.num 40)] (by decide)).2.2.2.1 (by decide)⟩

/-- C3, counterexample: a present non-numeric measurement is appended to the
feature vector uncoerced — with `hip_width` bound to the non-numeric value
`"x"`, the returned vector contains that non-numeric entry, so not every
missing or non-numeric measurement is coerced to a numeric default. -/
theorem extract_features_nonnumeric_counterexample :
    ∃ fs, extract_features [("hip_width", Val.str "x")] = Except.ok fs ∧
      (fs.all isNum) = false := by
  exact ⟨[Val.num 0, Val.num (0 * (11 / 10)), Val.num (0 * (3 / 4)),
    Val.str "x", Val.num 0, Val.num 0], rfl, rfl⟩

end SizePredictor

namespace SizePredictor

/-- C3 (amended): for a mapping whose canonical measurements, where present,
are numeric (missing keys allowed), `extract_features` returns exactly 6
numeric values — missing measurements are coerced to numeric defaults.
(A present non-numeric measurement, however, passes through uncoerced: see
the counterexample.) -/
theorem extract_features_numeric (m : Measurements)
    (hnum : ∀ name ∈ feature_names, ((mget m name).all isNum) = true) :
    ∃ qs : List ℚ, extract_features m = Except.ok (qs.map Val.num) ∧ qs.length = 6 := by
  have hsh : ShoulderOk m := hnum "shoulder_width" (by simp [feature_names])
  have hfd : ∀ name ∈ feature_names, featD m name = Val.num (numOf (featD m name)) := by
    intro name hname
    unfold featD
    cases hv : mget m name with
    | some v =>
      have hn2 := hnum name hname
      rw [hv] at hn2
      cases v with
      | num q => rfl
      | str s => simp [Option.all, isNum] at hn2
    | none => split_ifs <;> rfl
  refine ⟨feature_names.map (fun n => numOf (featD m n)), ?_, by simp [feature_names]⟩
  rw [extract_features_ok m hsh]
  congr 1
  rw [List.map_map]
  exact List.map_congr_left hfd

/-- C3 witness: a mapping holding only a numeric shoulder width yields a
6-entry all-numeric feature row. -/
theorem extract_features_numeric_witness :
    ∃ qs : List ℚ, extract_features [("shoulder_width", Val.num 40)] =
      Except.ok (qs.map Val.num) ∧ qs.length = 6 :=
  extract_features_numeric [("shoulder_width", Val.num 40)] (by decide)

/-- The first-maximum index returned by `np.argmax` is in bounds. -/
theorem argmaxIdx_lt (ps : List ℚ) (h : ps ≠ []) : argmaxIdx ps < ps.length := by
  induction ps with
  | nil => exact absurd rfl h
  | cons x t ih =>
    cases t with
    | nil => simp [argmaxIdx]
    | cons y t2 =>
      show (if x < maxQ (y :: t2) then argmaxIdx (y :: t2) + 1 else 0) < (x :: y :: t2).length
      split_ifs with hcmp
      · have h2 := ih (by simp)
        simp only [List.length_cons] at *
        omega
      · simp only [List.length_cons]
        omega

/-- Indexing the probability row at the `np.argmax` index yields its
maximum. -/
theorem getD_argmaxIdx (ps : List ℚ) (h : ps ≠ []) :
    ps.getD (argmaxIdx ps) 0 = maxQ ps := by
  induction ps with
  | nil => exact absurd rfl h
  | cons x t ih =>
    cases t with
    | nil => rfl
    | cons y t2 =>
      show (x :: y :: t2).getD (if x < maxQ (y :: t2) then argmaxIdx (y :: t2) + 1 else 0) 0 =
        max x (maxQ (y :: t2))
      split_ifs with hcmp
      · show (y :: t2).getD (argmaxIdx (y :: t2)) 0 = max x (maxQ (y :: t2))
        rw [ih (by simp), max_eq_right (le_of_lt hcmp)]
      · show x = max x (maxQ (y :: t2))
        rw [max_eq_left (le_of_not_lt hcmp)]

/-- Every entry of the row is bounded by its maximum. -/
theorem le_maxQ (ps : List ℚ) (p : ℚ) (hp : p ∈ ps) : p ≤ maxQ ps := by
  induction ps with
  | nil => simp at hp
  | cons x t ih =>
    cases t with
    | nil =>
      simp at hp
      simp [maxQ, hp]
    | cons y t2 =>
      rcases List.mem_cons.mp hp with h | h
      · exact h ▸ le_max_left x (maxQ (y :: t2))
      · exact le_trans (ih h) (le_max_right x (maxQ (y :: t2)))

/-- The maximum of a nonempty row is one of its entries. -/
theorem maxQ_mem (ps : List ℚ) (h : ps ≠ []) : maxQ ps ∈ ps := by
  induction ps with
  | nil => exact absurd rfl h
  | cons x t ih =>
    cases t with
    | nil => simp [maxQ]
    | cons y t2 =>
      show max x (maxQ (y :: t2)) ∈ x :: y :: t2
      rcases le_total x (maxQ (y :: t2)) with hle | hle
      · rw [max_eq_right hle]
        exact List.mem_cons_of_mem _ (ih (by simp))
      · rw [max_eq_left hle]
        exact List.mem_cons_self _ _

/-- The rule-based threshold chain only emits labels of `size_mapping`. -/
theorem ruleSizeLabel_mem (q : ℚ) : ruleSizeLabel q ∈ size_mapping := by
  unfold ruleSizeLabel size_mapping
  split_ifs <;> simp

end SizePredictor

namespace SizePredictor

/-- The inference call (`predict_proba` or `predict`) raises on the given
feature row. -/
def clfErrAt (c : Classifier) (x : List Val) : Prop :=
  match c with
  | .proba f => f x = Except.error ()
  | .hard f => f x = Except.error ()

/-- C1: for a measurement mapping (numeric values, possibly missing keys) on
which the pipeline reaches inference, if the classifier raises there then
`predict_size` catches the exception and returns the rule-based prediction
for the same (original) measurements; the caller observes no exception. -/
theorem predict_size_inference_exception (m : Measurements)
    (sc : Option (List Val → Except Unit (List Val))) (t : ℚ) (c : Classifier)
    (nm : Measurements) (fs fv : List Val)
    (hm : NumericMap m)
    (hn : normalize_measurements m 170 = Except.ok nm)
    (he : extract_features nm = Except.ok fs)
    (hs : applyScaler sc fs = Except.ok fv)
    (hc : clfErrAt c fv) :
    ∃ r, rule_based_prediction m = Except.ok r ∧
      predictResult { model := some c, scaler := sc } m t = Except.ok r := by
  obtain ⟨r, hr, -, -, -, -, -⟩ := rule_based_prediction_ok m (numericMap_shoulderOk m hm)
  refine ⟨r, hr, ?_⟩
  have hmp : modelPath sc c m = Except.error () := by
    unfold modelPath
    simp only [hn, he, hs]
    cases c with
    | proba f =>
      unfold clfErrAt at hc
      simp [hc]
    | hard f =>
      unfold clfErrAt at hc
      simp [hc]
  simp [predictResult, predict_size, hmp, hr]

/-- C1 witness: a classifier whose inference always raises, applied to a
numeric measurement mapping, yields the rule-based result. -/
theorem predict_size_inference_exception_witness :
    ∃ r, rule_based_prediction [("shoulder_width", Val.num 42)] = Except.ok r ∧
      predictResult
          { model := some (Classifier.proba fun _ => Except.error ()), scaler := none }
          [("shoulder_width", Val.num 42)] (7 / 10) = Except.ok r :=
  predict_size_inference_exception [("shoulder_width", Val.num 42)] none (7 / 10)
    (Classifier.proba fun _ => Except.error ())
    (scaleAll [("shoulder_width", Val.num 42)] (heightFactor 100 170)) _ _
    (by decide) rfl rfl rfl rfl

/-- C5: when no model is loaded, `predict_size` on any numeric measurement
mapping and for any confidence threshold returns a result with method
`rule_based` and confidence exactly `0.5`. -/
theorem predict_size_no_model (m : Measurements)
    (sc : Option (List Val → Except Unit (List Val))) (t : ℚ) (hm : NumericMap m) :
    ∃ r, predictResult { model := none, scaler := sc } m t = Except.ok r ∧
      r.method = some "rule_based" ∧ r.confidence = 1 / 2 := by
  obtain ⟨r, hr, hme, hconf, -, -, -⟩ := rule_based_prediction_ok m (numericMap_shoulderOk m hm)
  exact ⟨r, by simp [predictResult, predict_size, hr], hme, hconf⟩

/-- C5 witness: no model, shoulder width 42, threshold 0.7. -/
theorem predict_size_no_model_witness :
    ∃ r, predictResult { model := none, scaler := none }
        [("shoulder_width", Val.num 42)] (7 / 10) = Except.ok r ∧
      r.method = some "rule_based" ∧ r.confidence = 1 / 2 :=
  predict_size_no_model [("shoulder_width", Val.num 42)] none (7 / 10) (by decide)

/-- C9: the result of `predict_size` does not depend on the confidence
threshold — a confidence below the threshold only changes the emitted
low-confidence log, never the returned prediction. -/
theorem predict_size_threshold_independent (st : SizeEstimator) (m : Measurements)
    (t1 t2 : ℚ) : predictResult st m t1 = predictResult st m t2 := by
  unfold predictResult predict_size
  cases st.model with
  | none => rfl
  | some c =>
    cases hmp : modelPath st.scaler c m with
    | ok r => simp [hmp]
    | error e => simp [hmp]

end SizePredictor

namespace SizePredictor

/-- Any successful `_rule_based_prediction` result has a label from
`size_mapping`, confidence 0.5, no `all_probabilities` key, method
"rule_based", and carries the measurements it was given. -/
theorem rule_based_fields (m : Measurements) (r : PredResult)
    (h : rule_based_prediction m = Except.ok r) :
    r.predicted_size ∈ size_mapping ∧ r.confidence = 1 / 2 ∧
    r.all_probabilities = none ∧ r.method = some "rule_based" ∧
    r.measurements_used = m := by
  unfold rule_based_prediction at h
  cases hv : mget m "shoulder_width" with
  | none =>
    simp only [hv, Except.ok.injEq] at h
    subst h
    exact ⟨ruleSizeLabel_mem 0, rfl, rfl, rfl, rfl⟩
  | some v =>
    cases v with
    | str s =>
      simp only [hv] at h
      exact Except.noConfusion h
    | num q =>
      simp only [hv, Except.ok.injEq] at h
      subst h
      exact ⟨ruleSizeLabel_mem q, rfl, rfl, rfl, rfl⟩

/-- The probability outputs of the classifier are genuine probabilities (the
library contract of `predict_proba`): every reported probability lies in
[0, 1]. -/
def ClfBounded : Classifier → Prop
  | .proba f => ∀ x ps, f x = Except.ok ps → ∀ p ∈ ps, 0 ≤ p ∧ p ≤ 1
  | .hard _ => True

/-- The loaded model, if any, satisfies the probability contract. -/
def BoundedProbs (st : SizeEstimator) : Prop :=
  match st.model with
  | some c => ClfBounded c
  | none => True

/-- Any successful model-path result has a label from `size_mapping`,
confidence in [0, 1] (given the probability contract), an
`all_probabilities` key present, and no `method` key. -/
theorem modelPath_fields (sc : Option (List Val → Except Unit (List Val)))
    (c : Classifier) (m : Measurements) (r : PredResult)
    (hb : ClfBounded c) (h : modelPath sc c m = Except.ok r) :
    r.predicted_size ∈ size_mapping ∧ (0 ≤ r.confidence ∧ r.confidence ≤ 1) ∧
    (∃ o, r.all_probabilities = some o) ∧ r.method = none := by
  unfold modelPath at h
  cases hn : normalize_measurements m 170 with
  | error e => simp only [hn] at h; exact Except.noConfusion h
  | ok nm =>
  simp only [hn] at h
  cases he : extract_features nm with
  | error e => simp only [he] at h; exact Except.noConfusion h
  | ok fs =>
  simp only [he] at h
  cases hs : applyScaler sc fs with
  | error e => simp only [hs] at h; exact Except.noConfusion h
  | ok fv =>
  simp only [hs] at h
  cases c with
  | proba f =>
    unfold ClfBounded at hb
    cases hf : f fv with
    | error e => simp only [hf] at h; exact Except.noConfusion h
    | ok ps =>
    simp only [hf] at h
    cases ps with
    | nil => exact Except.noConfusion h
    | cons p0 pr =>
      cases hlbl : size_mapping.get? (argmaxIdx (p0 :: pr)) with
      | none => simp only [hlbl] at h; exact Except.noConfusion h
      | some lbl =>
        simp only [hlbl, Except.ok.injEq] at h
        subst h
        have hne : (p0 :: pr : List ℚ) ≠ [] := by simp
        refine ⟨List.get?_mem hlbl, ?_, ⟨some (p0 :: pr), rfl⟩, rfl⟩
        show 0 ≤ (p0 :: pr).getD (argmaxIdx (p0 :: pr)) 0 ∧
          (p0 :: pr).getD (argmaxIdx (p0 :: pr)) 0 ≤ 1
        rw [getD_argmaxIdx (p0 :: pr) hne]
        exact hb fv (p0 :: pr) hf _ (maxQ_mem (p0 :: pr) hne)
  | hard f =>
    cases hf : f fv with
    | error e => simp only [hf] at h; exact Except.noConfusion h
    | ok k =>
    simp only [hf] at h
    cases hlbl : (if 0 ≤ k then size_mapping.get? k.toNat else none) with
    | none => simp only [hlbl] at h; exact Except.noConfusion h
    | some lbl =>
      simp only [hlbl, Except.ok.injEq] at h
      subst h
      have hmem : lbl ∈ size_mapping := by
        by_cases h0 : 0 ≤ k
        · rw [if_pos h0] at hlbl
          exact List.get?_mem hlbl
        · rw [if_neg h0] at hlbl
          exact Option.noConfusion hlbl
      exact ⟨hmem, ⟨by norm_num, by norm_num⟩, ⟨none, rfl⟩, rfl⟩

/-- C4, counterexample: the rule-based path returns a result mapping with no
`all_probabilities` key at all (the claim requires the field on every
result). -/
theorem predict_size_fields_counterexample :
    ∃ r, predictResult { model := none, scaler := none } [] (7 / 10) = Except.ok r ∧
      r.all_probabilities = none :=
  ⟨_, rfl, rfl⟩

/-- C4 (amended): every result mapping returned by `predict_size` carries a
size label drawn from `size_mapping` and a confidence in [0, 1] (given the
classifier probability contract); the `all_probabilities` key is present
exactly on the model path — rule-based results (marked `method =
"rule_based"`) omit it. -/
theorem predict_size_result_fields (st : SizeEstimator) (m : Measurements) (t : ℚ)
    (r : PredResult) (hb : BoundedProbs st)
    (h : predictResult st m t = Except.ok r) :
    r.predicted_size ∈ size_mapping ∧ (0 ≤ r.confidence ∧ r.confidence ≤ 1) ∧
    (r.all_probabilities = none ↔ r.method = some "rule_based") := by
  unfold predictResult predict_size at h
  cases hmo : st.model with
  | none =>
    simp only [hmo] at h
    obtain ⟨hmem, hconf, hap, hme, -⟩ := rule_based_fields m r h
    exact ⟨hmem, by rw [hconf]; norm_num, by simp [hap, hme]⟩
  | some c =>
    simp only [hmo] at h
    cases hmp : modelPath st.scaler c m with
    | ok r2 =>
      simp only [hmp, Except.ok.injEq] at h
      subst h
      have hb2 : ClfBounded c := by
        unfold BoundedProbs at hb
        simp only [hmo] at hb
        exact hb
      obtain ⟨hmem, hconf, ⟨o, hap⟩, hme⟩ := modelPath_fields st.scaler c m r2 hb2 hmp
      refine ⟨hmem, hconf, ?_⟩
      rw [hap, hme]
      simp
    | error e =>
      simp only [hmp] at h
      obtain ⟨hmem, hconf, hap, hme, -⟩ := rule_based_fields m r h
      exact ⟨hmem, by rw [hconf]; norm_num, by simp [hap, hme]⟩

/-- C4 witness: the rule-based result on an empty mapping has a label in
`size_mapping`, confidence 1/2 in [0, 1], and no probability key, marked
rule-based. -/
theorem predict_size_result_fields_witness :
    ruleSizeLabel 0 ∈ size_mapping ∧ ((0 : ℚ) ≤ 1 / 2 ∧ (1 : ℚ) / 2 ≤ 1) ∧
    ((none : Option (Option (List ℚ))) = none ↔
      (some "rule_based" : Option String) = some "rule_based") :=
  predict_size_result_fields { model := none, scaler := none } [] (7 / 10)
    { predicted_size := ruleSizeLabel 0, confidence := 1 / 2,
      all_probabilities := none, method := some "rule_based", measurements_used := [] }
    True.intro rfl

/-- C8: on the model path, a classifier exposing probabilities yields the
arg-max class label, the maximal probability as confidence, and the full
probability vector under the `all_probabilities` key; a hard-label
classifier yields confidence exactly 1 and a `null` probability vector. -/
theorem predict_size_model_paths (m : Measurements)
    (sc : Option (List Val → Except Unit (List Val))) (t : ℚ) (nm : Measurements)
    (fs fv : List Val)
    (hn : normalize_measurements m 170 = Except.ok nm)
    (he : extract_features nm = Except.ok fs)
    (hs : applyScaler sc fs = Except.ok fv) :
    (∀ f ps, f fv = Except.ok ps → ps.length = 6 →
      ∃ lbl, size_mapping.get? (argmaxIdx ps) = some lbl ∧
        predictResult { model := some (Classifier.proba f), scaler := sc } m t =
          Except.ok { predicted_size := lbl, confidence := maxQ ps,
                      all_probabilities := some (some ps), method := none,
                      measurements_used := nm }) ∧
    (∀ f k, f fv = Except.ok k → 0 ≤ k → k < 6 →
      ∃ lbl, size_mapping.get? k.toNat = some lbl ∧
        predictResult { model := some (Classifier.hard f), scaler := sc } m t =
          Except.ok { predicted_size := lbl, confidence := 1,
                      all_probabilities := some none, method := none,
                      measurements_used := nm }) := by
  constructor
  · intro f ps hf hlen
    have hne : ps ≠ [] := by
      intro hc
      rw [hc] at hlen
      simp at hlen
    have hlt : argmaxIdx ps < size_mapping.length := by
      show argmaxIdx ps < 6
      have h2 := argmaxIdx_lt ps hne
      omega
    refine ⟨size_mapping.get ⟨argmaxIdx ps, hlt⟩, List.get?_eq_get hlt, ?_⟩
    have hmp : modelPath sc (Classifier.proba f) m = Except.ok
        { predicted_size := size_mapping.get ⟨argmaxIdx ps, hlt⟩,
          confidence := maxQ ps, all_probabilities := some (some ps), method := none,
          measurements_used := nm } := by
      unfold modelPath
      simp only [hn, he, hs, hf]
      cases ps with
      | nil => exact absurd rfl hne
      | cons p0 pr =>
        simp only [List.get?_eq_get hlt]
        rw [getD_argmaxIdx (p0 :: pr) (by simp)]
    simp [predictResult, predict_size, hmp]
  · intro f k hf h0 h6
    have hlt : k.toNat < size_mapping.length := by
      show k.toNat < 6
      omega
    refine ⟨size_mapping.get ⟨k.toNat, hlt⟩, List.get?_eq_get hlt, ?_⟩
    have hmp : modelPath sc (Classifier.hard f) m = Except.ok
        { predicted_size := size_mapping.get ⟨k.toNat, hlt⟩, confidence := 1,
          all_probabilities := some none, method := none, measurements_used := nm } := by
      unfold modelPath
      simp only [hn, he, hs, hf]
      rw [if_pos h0]
      simp only [List.get?_eq_get hlt]
    simp [predictResult, predict_size, hmp]

/-- C8 witness: a probability classifier reporting [0,1,0,0,0,0] yields class
1 with confidence 1 and the full vector; a hard classifier reporting class 2
yields confidence 1 and a `null` vector. -/
theorem predict_size_model_paths_witness :
    (∃ lbl, size_mapping.get? (argmaxIdx [0, 1, 0, 0, 0, 0]) = some lbl ∧
      predictResult { model := some (Classifier.proba fun _ => Except.ok [0, 1, 0, 0, 0, 0]),
                      scaler := none } [] (7 / 10) =
        Except.ok { predicted_size := lbl, confidence := maxQ [0, 1, 0, 0, 0, 0],
                    all_probabilities := some (some [0, 1, 0, 0, 0, 0]), method := none,
                    measurements_used := [] }) ∧
    (∃ lbl, size_mapping.get? (2 : ℤ).toNat = some lbl ∧
      predictResult { model := some (Classifier.hard fun _ => Except.ok 2), scaler := none }
        [] (7 / 10) =
        Except.ok { predicted_size := lbl, confidence := 1,
                    all_probabilities := some none, method := none,
                    measurements_used := [] }) :=
  ⟨(predict_size_model_paths [] none (7 / 10) [] _ _ rfl rfl rfl).1 _ _ rfl rfl,
   (predict_size_model_paths [] none (7 / 10) [] _ _ rfl rfl rfl).2 _ _ rfl (by decide) (by decide)⟩

end SizePredictor
